import Mathlib

/-!
Verification of the update/freshness scheduler of the Nolus-Ambassadors
dashboard.  The Python sources (`x_collector.py`, `api_call_tracker.py`,
`app.py`, `update_service.py`) are shallowly embedded below: JSON state
becomes association lists, timestamps become `Int` seconds, calendar days
become `Int` day numbers, and the external X/Reddit/Supabase collaborators
become explicit parameters (an oracle for the metric fetch, lists of rows
for query results).
-/

namespace NolusAmb

/-! ## Stable sorting, as performed by Python's `list.sort(key=...)`

Python's `list.sort` is a stable sort; the repository uses it ascending on
`submitted_date` (`x_collector.py`, `app.py`) and descending via
`reverse=True` / `sort(key=..., reverse=True)` on leaderboard totals
(`update_service.py`).  We embed it as a stable insertion sort
parameterised by a boolean relation: an element keeps its place in front
of the already-sorted tail exactly when the relation accepts the pair, so
ties preserve the original (insertion) order. -/

def pyInsert (le : α → α → Bool) (x : α) : List α → List α
  | [] => [x]
  | y :: ys => if le x y then x :: y :: ys else y :: pyInsert le x ys

def pySort (le : α → α → Bool) : List α → List α
  | [] => []
  | x :: xs => pyInsert le x (pySort le xs)

/-- Ascending stable sort by an integer key (`list.sort(key=...)`). -/
def pySortAscBy (key : α → Int) (l : List α) : List α :=
  pySort (fun a b => key a ≤ key b) l

/-- Descending stable sort by an integer key (`list.sort(key=..., reverse=True)`). -/
def pySortDescBy (key : α → Int) (l : List α) : List α :=
  pySort (fun a b => key b ≤ key a) l

/-! ## Data model: submitted tweets (`tweets_data.json`)

A tweet record as stored by the dashboard.  `submitted_date` is `none`
when the stored string is missing or unparsable (both cases make the
Python loop `continue`); `last_updated` is `none` when the key is absent,
in which case the code falls back to the submitted date
(`tweet.get('last_updated', submitted_date_str)`).  Timestamps are seconds
as `Int`; ISO-8601 strings compare chronologically, so string order and
equality on them are faithfully modelled by `Int` order and equality. -/

structure Tweet where
  tweet_id : Nat
  submitted_date : Option Int
  last_updated : Option Int
  impressions : Nat
  final_update : Bool
  deriving DecidableEq, Repr

/-- `tweets_data.json`: a JSON object mapping ambassador names to tweet
lists, embedded as an insertion-ordered association list (Python dicts
preserve insertion order and have unique keys). -/
abbrev TweetsData := List (String × List Tweet)

/-- `timedelta(days=3)` in seconds. -/
def threeDaysSecs : Int := 3 * 24 * 60 * 60

/-- Freshness classes of a tweet.  `get_tweets_ready_for_update`
(`x_collector.py` lines 154-193, duplicated in `app.py` lines 110-148)
and `get_smart_update_stats` (`app.py` lines 150-192) bucket each tweet
with a parsable submission date by the same branch structure: younger
than three days; else ready when `not final_update and (impressions == 0
or last_updated == submitted_date)`; else already updated.  `final`
names the `final_update = true` sub-case of the non-ready bucket, which
the code tests first in its short-circuit conjunction. -/
inductive Classification where
  | tooNew
  | final
  | ready
  | alreadyUpdated
  deriving DecidableEq, Repr

/-- The per-tweet classification performed inside the loop of
`get_tweets_ready_for_update`: `none` when the submission date is missing
or unparsable (the loop skips the tweet), otherwise the freshness class.
`now - timedelta(days=3)` is `now - threeDaysSecs`, and the code keeps the
tweet when `submitted_date <= three_days_ago`. -/
def classify (t : Tweet) (now : Int) : Option Classification :=
  match t.submitted_date with
  | none => none
  | some s =>
    if now - threeDaysSecs < s then some .tooNew
    else if t.final_update then some .final
    else if t.impressions = 0 ∨ t.last_updated.getD s = s then some .ready
    else some .alreadyUpdated

/-- Boolean form of the ready test of `get_tweets_ready_for_update`. -/
def tweetReady (now : Int) (t : Tweet) : Bool :=
  match t.submitted_date with
  | none => false
  | some s =>
    decide (s ≤ now - threeDaysSecs) && !t.final_update &&
      (decide (t.impressions = 0) || decide (t.last_updated.getD s = s))

/-- An aged (four-plus days), non-finalized tweet whose impressions are
non-zero and whose `last_updated` differs from its `submitted_date`: the
heuristic in `get_tweets_ready_for_update` treats it as already updated,
not ready. -/
def heuristicTweet : Tweet :=
  { tweet_id := 1, submitted_date := some 0, last_updated := some 400000,
    impressions := 750, final_update := false }

/-! ## Quota counter (`api_count.json`, `increment_api_count`,
`get_monthly_api_usage`)

`api_count.json` maps month keys (`YYYY-MM` strings) to call counts;
`increment_api_count` (`x_collector.py` lines 19-36, duplicated in
`app.py` lines 91-108) does `data[month] = data.get(month, 0) + 1` and
returns the new count.  `get_monthly_api_usage`
(`api_call_tracker.py` lines 89-142) reports
`remaining_calls = max(0, 100 - total_calls)`. -/

abbrev ApiCount := List (String × Nat)

/-- `data.get(month, 0)`. -/
def countOf (counts : ApiCount) (month : String) : Nat :=
  (counts.lookup month).getD 0

/-- `data[month] = n` on a JSON object: replace the first binding or
append a new one. -/
def setCount : ApiCount → String → Nat → ApiCount
  | [], m, n => [(m, n)]
  | (k, v) :: rest, m, n =>
    if k = m then (k, n) :: rest else (k, v) :: setCount rest m n

/-- `increment_api_count`: add 1 to the current month's count and return
the new count. -/
def increment_api_count (month : String) (counts : ApiCount) : ApiCount × Nat :=
  let n := countOf counts month + 1
  (setCount counts month n, n)

/-- The outcomes of `client.get_tweet` as handled by
`fetch_tweet_impressions` (`x_collector.py` lines 105-152): a response
with data carrying `impression_count`, a response with no data, or one of
the four exception branches. -/
inductive FetchOutcome where
  | success (impressions : Nat)
  | noData
  | notFound
  | unauthorized
  | tooManyRequests
  | otherError
  deriving DecidableEq, Repr

/-- `fetch_tweet_impressions`: returns the fetched impression count (or
`none`) and the quota state; each branch of the source — the with-data
path, the no-data path, and all four exception handlers — calls
`increment_api_count` exactly once. -/
def fetch_tweet_impressions (o : FetchOutcome) (month : String)
    (counts : ApiCount) : Option Nat × ApiCount :=
  match o with
  | .success v => (some v, (increment_api_count month counts).1)
  | .noData => (none, (increment_api_count month counts).1)
  | .notFound => (none, (increment_api_count month counts).1)
  | .unauthorized => (none, (increment_api_count month counts).1)
  | .tooManyRequests => (none, (increment_api_count month counts).1)
  | .otherError => (none, (increment_api_count month counts).1)

/-- A sequence of fetch attempts within one month, threading the quota
state. -/
def runFetches (month : String) : List FetchOutcome → ApiCount → ApiCount
  | [], counts => counts
  | o :: os, counts =>
    runFetches month os (fetch_tweet_impressions o month counts).2

/-- `remaining_calls` as computed by `get_monthly_api_usage`:
`max(0, 100 - total_calls)`. -/
def remaining_calls (total_calls : Nat) : Int :=
  max 0 (100 - (total_calls : Int))

/-! ## Batch refresh (`get_tweets_ready_for_update`,
`update_smart_impressions`)

`update_smart_impressions` (`x_collector.py` lines 195-261) collects the
ready list, and for each ready entry scans `tweets_data[ambassador]` for
the tweet with the matching id, fetches its impressions (one quota-counted
API call), and on success overwrites `impressions`, sets `last_updated`
to now and `final_update` to true; on failure it leaves the tweet object
untouched and moves on.  The external fetch is modelled by an oracle
`Nat → Option Nat` from tweet id to the fetched impression count
(`none` = any failure), and the quota state by the current month's call
count threaded through the run. -/

/-- An entry of the `ready_for_update` list built by
`get_tweets_ready_for_update` (the fields the batch uses). -/
structure ReadyTweet where
  ambassador : String
  tweet_id : Nat
  submitted_date : Int
  deriving DecidableEq, Repr

/-- The unsorted `ready_for_update` list: for each ambassador in
insertion order, the tweets passing the ready test, in list order. -/
def readyEntries (now : Int) : TweetsData → List ReadyTweet
  | [] => []
  | (name, ts) :: rest =>
    (ts.filter (tweetReady now)).map
        (fun t => ⟨name, t.tweet_id, t.submitted_date.getD 0⟩)
      ++ readyEntries now rest

/-- `get_tweets_ready_for_update`: ready entries sorted ascending
(oldest first) by submission date. -/
def get_tweets_ready_for_update (data : TweetsData) (now : Int) :
    List ReadyTweet :=
  pySortAscBy (fun r => r.submitted_date) (readyEntries now data)

/-- The successful-fetch mutation of a tweet object:
`tweet['impressions'] = impressions; tweet['last_updated'] = now;
tweet['final_update'] = True`. -/
def applyFetch (now : Int) (v : Nat) (t : Tweet) : Tweet :=
  { t with impressions := v, last_updated := some now, final_update := true }

/-- The inner loop over `tweets_data[ambassador]`: find the first tweet
with the given id, fetch (flag `true` when a fetch happened), apply the
mutation on success, and `break`. -/
def updateTweetList (oracle : Nat → Option Nat) (now : Int) (tid : Nat) :
    List Tweet → List Tweet × Bool
  | [] => ([], false)
  | t :: ts =>
    if t.tweet_id = tid then
      match oracle tid with
      | some v => (applyFetch now v t :: ts, true)
      | none => (t :: ts, true)
    else
      let r := updateTweetList oracle now tid ts
      (t :: r.1, r.2)

/-- Apply the inner loop to `tweets_data[ambassador]` (first binding of
the key, as in a Python dict); an absent key makes no fetch. -/
def updateAmbassador (oracle : Nat → Option Nat) (now : Int) (tid : Nat)
    (amb : String) : TweetsData → TweetsData × Bool
  | [] => ([], false)
  | (name, ts) :: rest =>
    if name = amb then
      let r := updateTweetList oracle now tid ts
      ((name, r.1) :: rest, r.2)
    else
      let r := updateAmbassador oracle now tid amb rest
      ((name, ts) :: r.1, r.2)

/-- Whether `tweets_data[ambassador]` contains a tweet with the given id
(first binding of the key, as in a Python dict). -/
def hasTweet : TweetsData → String → Nat → Bool
  | [], _, _ => false
  | (name, ts) :: rest, amb, tid =>
    if name = amb then ts.any (fun t => t.tweet_id = tid)
    else hasTweet rest amb tid

/-- Result of a batch run: the mutated store, the tweet ids fetched in
order, and the month's API call count after the run. -/
structure BatchResult where
  data : TweetsData
  trace : List Nat
  calls : Nat
  deriving DecidableEq, Repr

/-- The main loop of `update_smart_impressions` over the ready list;
every fetch, successful or not, bumps the month's call count
(`fetch_tweet_impressions` calls `increment_api_count` on every path). -/
def runReady (oracle : Nat → Option Nat) (now : Int) :
    List ReadyTweet → TweetsData → Nat → BatchResult
  | [], data, calls => ⟨data, [], calls⟩
  | r :: rs, data, calls =>
    let s := updateAmbassador oracle now r.tweet_id r.ambassador data
    let rest := runReady oracle now rs s.1 (if s.2 then calls + 1 else calls)
    ⟨rest.data, (if s.2 then [r.tweet_id] else []) ++ rest.trace, rest.calls⟩

/-- `update_smart_impressions`: run the batch over the sorted ready list
(an empty ready list returns immediately with nothing changed, exactly
what `runReady` does on `[]`). -/
def update_smart_impressions (oracle : Nat → Option Nat) (now : Int)
    (data : TweetsData) (calls : Nat) : BatchResult :=
  runReady oracle now (get_tweets_ready_for_update data now) data calls

/-- How a single stored tweet can evolve across a batch: untouched, or
overwritten by a successful fetch of its id. -/
def tweetEvolves (oracle : Nat → Option Nat) (now : Int) (t t' : Tweet) :
    Prop :=
  t' = t ∨ ∃ v, oracle t.tweet_id = some v ∧ t' = applyFetch now v t

/-- Pointwise evolution of the whole store: same ambassadors in the same
order, each tweet list evolving pointwise. -/
def dataEvolves (oracle : Nat → Option Nat) (now : Int)
    (d d' : TweetsData) : Prop :=
  List.Forall₂
    (fun p q => p.1 = q.1 ∧ List.Forall₂ (tweetEvolves oracle now) p.2 q.2)
    d d'

/-- An always-succeeding fetch oracle for concrete runs. -/
def cexOracle : Nat → Option Nat := fun tid => some (100 * tid)

/-- A store with a single ready tweet (submitted at 0, never updated). -/
def oneReadyData : TweetsData :=
  [("alice", [{ tweet_id := 1, submitted_date := some 0, last_updated := none,
                impressions := 0, final_update := false }])]

/-- A store with three ready tweets submitted at times 0 < 1000 < 2000. -/
def threeReadyData : TweetsData :=
  [("alice", [{ tweet_id := 1, submitted_date := some 0, last_updated := none,
                impressions := 0, final_update := false },
              { tweet_id := 2, submitted_date := some 1000, last_updated := none,
                impressions := 0, final_update := false }]),
   ("bob",   [{ tweet_id := 3, submitted_date := some 2000, last_updated := none,
                impressions := 0, final_update := false }])]

/-- A fetch oracle that fails (returns no metrics) exactly for tweet id
2 and succeeds for every other id. -/
def failMidOracle : Nat → Option Nat :=
  fun tid => if tid = 2 then none else some (111 * tid)

/-! ## Daily delta calculator (`calculate_daily_impressions`,
`auto_calculate_daily_impressions`, `update_service.py` lines 279-345 and
393-417)

The `daily_impressions` table keyed by calendar date.  Dates are `Int`
day numbers (so yesterday is `today - 1`); `created_at` is a timestamp in
seconds set by the store on insert, and the auto wrapper recomputes only
when the existing today-record is at least one hour (3600 s) old
(`hours_since_creation >= 1`).  The Supabase reads/writes become lookups
and updates on the list of records, and the sum over the `Impressions`
column of the `ambassadors` table becomes the sum of an integer list. -/

structure DailyRecord where
  date : Int
  total_impressions : Int
  impressions_gained : Int
  created_at : Int
  deriving DecidableEq, Repr

abbrev DailyTable := List DailyRecord

/-- `.eq("date", d)` select: the first record of the given date. -/
def lookupDate (table : DailyTable) (d : Int) : Option DailyRecord :=
  table.find? (fun r => r.date = d)

/-- `.update({...}).eq(...)`: rewrite the first record of the given
date. -/
def updateDate (d : Int) (f : DailyRecord → DailyRecord) :
    DailyTable → DailyTable
  | [] => []
  | r :: rs => if r.date = d then f r :: rs else r :: updateDate d f rs

/-- `calculate_daily_impressions`: with `current_total` the sum of all
stored impressions, update today's record (gain relative to yesterday's
stored total, or to 0 when no yesterday record exists), or insert a new
one (gain relative to yesterday, or 0 as first-run baseline); the stored
gain is clamped with `max(0, ...)` in both write paths. -/
def calculate_daily_impressions (rows : List Int) (table : DailyTable)
    (today : Int) (now : Int) : DailyTable :=
  let current_total := rows.sum
  match lookupDate table today with
  | some _ =>
    let gained :=
      match lookupDate table (today - 1) with
      | some y => current_total - y.total_impressions
      | none => current_total
    updateDate today (fun r =>
      { r with total_impressions := current_total,
               impressions_gained := max 0 gained }) table
  | none =>
    let gained :=
      match lookupDate table (today - 1) with
      | some y => current_total - y.total_impressions
      | none => 0
    table ++ [{ date := today, total_impressions := current_total,
                impressions_gained := max 0 gained, created_at := now }]

/-- `auto_calculate_daily_impressions`: recompute an existing today-record
only when it is at least one hour old; compute it when absent. -/
def auto_calculate_daily_impressions (rows : List Int) (table : DailyTable)
    (today : Int) (now : Int) : DailyTable :=
  match lookupDate table today with
  | some r0 =>
    if 3600 ≤ now - r0.created_at then
      calculate_daily_impressions rows table today now
    else table
  | none => calculate_daily_impressions rows table today now

/-- The observable fields of a daily snapshot (its totals). -/
def dailyVals (r : DailyRecord) : Int × Int :=
  (r.total_impressions, r.impressions_gained)

/-- The record mutation performed by the update branch of
`calculate_daily_impressions`: overwrite `total_impressions` and
`impressions_gained`, leaving `date` and `created_at` alone. -/
def dailyWrite (ct g : Int) (r : DailyRecord) : DailyRecord :=
  { r with total_impressions := ct, impressions_gained := g }

/-- A daily table holding only a record for day 9 (yesterday of day
10). -/
def yesterdayTable : DailyTable :=
  [{ date := 9, total_impressions := 400, impressions_gained := 0,
     created_at := 0 }]

/-- A daily table holding only a today-record (day 10) and no record for
day 9, as left behind by an earlier anomalous run. -/
def staleTodayTable : DailyTable :=
  [{ date := 10, total_impressions := 10, impressions_gained := 0,
     created_at := 0 }]

/-! ## Python string primitives

`str.split(sep)` scans left to right and cuts at each non-overlapping
occurrence of `sep`; the code only ever takes the first (`[0]`) or last
(`[-1]`) piece, so we embed exactly those: `beforeFirst` is
`s.split(sep)[0]` and `lastPiece` is `s.split(sep)[-1]`, over `List Char`
(`String.splitOn` exists but its compiled implementation does not reduce
in the kernel, while these do).  `pyLower` is `str.lower()` on the
character list. -/

/-- The suffix after the first occurrence of `sep`, or `none` when `sep`
does not occur (`sep` nonempty in every use below). -/
def afterFirst (sep : List Char) : List Char → Option (List Char)
  | [] => if sep = [] then some [] else none
  | c :: rest =>
    if sep.isPrefixOf (c :: rest) then some ((c :: rest).drop sep.length)
    else afterFirst sep rest

/-- Iterate `afterFirst` to reach the piece after the last occurrence;
the fuel bounds the number of cuts (each cut strictly shortens the
string). -/
def lastPieceFuel (sep : List Char) : Nat → List Char → List Char
  | 0, s => s
  | fuel + 1, s =>
    match afterFirst sep s with
    | some s' => lastPieceFuel sep fuel s'
    | none => s

/-- `s.split(sep)[-1]`. -/
def lastPiece (sep s : List Char) : List Char :=
  lastPieceFuel sep s.length s

/-- `s.split(sep)[0]`: the prefix before the first occurrence of `sep`
(the whole string when `sep` does not occur). -/
def beforeFirst (sep : List Char) : List Char → List Char
  | [] => []
  | c :: rest =>
    if sep.isPrefixOf (c :: rest) then [] else c :: beforeFirst sep rest

/-- `str.lower()` (ASCII names in this domain). -/
def pyLower (s : String) : List Char :=
  s.data.map Char.toLower

/-! ## Submissions (`add_new_tweet`, `add_new_reddit_post`,
`update_service.py` lines 40-112) -/

/-- `extract_tweet_id`: `url.split("/status/")[-1].split("?")[0]` when
`"/status/" in url`, else `None`. -/
def extract_tweet_id (tweet_url : String) : Option String :=
  if (afterFirst ("/status/".data) tweet_url.data).isSome then
    some (String.mk (beforeFirst ("?".data)
      (lastPiece ("/status/".data) tweet_url.data)))
  else none

/-- `extract_reddit_id`: `url.split("/comments/")[-1].split("/")[0]` when
`"/comments/" in url`, else `None`. -/
def extract_reddit_id (reddit_url : String) : Option String :=
  if (afterFirst ("/comments/".data) reddit_url.data).isSome then
    some (String.mk (beforeFirst ("/".data)
      (lastPiece ("/comments/".data) reddit_url.data)))
  else none

/-- How the Supabase `.insert(...).execute()` call behaves: it returns
(with or without `result.data`), or it raises — with a duplicate-key
message or some other error message. -/
inductive InsertOutcome where
  | ok (hasData : Bool)
  | raisesDuplicate
  | raisesOther (msg : String)
  deriving DecidableEq, Repr

/-- The second component of the pair returned by the submission
functions: normally a message string, but on the no-data success path the
conditional expression binds only to the message slot, nesting a whole
`(False, "Failed to insert")` tuple there. -/
inductive ReturnValue where
  | text (s : String)
  | nested (flag : Bool) (s : String)
  deriving DecidableEq, Repr

/-- `add_new_tweet`: validate the URL, check for a duplicate URL row,
insert, and return `(success_flag, message)`.  The return statement is
`return True, "Tweet added for ..." if result.data else (False, "Failed
to insert")`: the conditional binds to the message only, so the flag is
`True` whenever the insert call itself does not raise. -/
def add_new_tweet (ambassador : String) (tweet_url : String)
    (existingUrls : List String) (ins : InsertOutcome) : Bool × ReturnValue :=
  match extract_tweet_id tweet_url with
  | none => (false, .text "Invalid tweet URL format")
  | some tid =>
    if tid.isEmpty then (false, .text "Invalid tweet URL format")
    else if existingUrls.contains tweet_url then
      (false, .text "Tweet URL already exists")
    else
      match ins with
      | .ok true => (true, .text ("Tweet added for " ++ ambassador))
      | .ok false => (true, .nested false "Failed to insert")
      | .raisesDuplicate => (false, .text "Link has been added already")
      | .raisesOther m => (false, .text ("Database error: " ++ m))

/-- `add_new_reddit_post`: same structure and the same
conditional-binding in the return statement. -/
def add_new_reddit_post (ambassador : String) (reddit_url : String)
    (existingUrls : List String) (ins : InsertOutcome) : Bool × ReturnValue :=
  match extract_reddit_id reddit_url with
  | none => (false, .text "Invalid Reddit URL format")
  | some pid =>
    if pid.isEmpty then (false, .text "Invalid Reddit URL format")
    else if existingUrls.contains reddit_url then
      (false, .text "Reddit URL already exists")
    else
      match ins with
      | .ok true => (true, .text ("Reddit post added for " ++ ambassador))
      | .ok false => (true, .nested false "Failed to insert")
      | .raisesDuplicate => (false, .text "Link has been added already")
      | .raisesOther m => (false, .text ("Database error: " ++ m))

/-! ## Leaderboards (`get_leaderboard`, `get_total_leaderboard`,
`update_service.py` lines 114-162 and 419-503)

Query results become lists of row records (`None` = the query raised);
the month filter is part of the external query and the embedded functions
receive what it returns (we embed the `year=None, month=None` path). -/

/-- A row of the `ambassadors` table as used by the leaderboards. -/
structure XRow where
  Ambassador : String
  Impressions : Int
  Likes : Int
  Replies : Int
  Retweets : Int
  deriving DecidableEq, Repr

/-- One ambassador's accumulated totals in `get_leaderboard`. -/
structure AmbStats where
  name : String
  tweets : Nat
  total_impressions : Int
  total_likes : Int
  total_replies : Int
  total_retweets : Int
  deriving DecidableEq, Repr

/-- The zero-initialised stats entry created when an ambassador is first
seen. -/
def initStats (name : String) : AmbStats :=
  { name := name, tweets := 0, total_impressions := 0, total_likes := 0,
    total_replies := 0, total_retweets := 0 }

/-- One loop iteration's `+=` block. -/
def bumpStats (s : AmbStats) (t : XRow) : AmbStats :=
  { s with tweets := s.tweets + 1,
           total_impressions := s.total_impressions + t.Impressions,
           total_likes := s.total_likes + t.Likes,
           total_replies := s.total_replies + t.Replies,
           total_retweets := s.total_retweets + t.Retweets }

/-- Process one row into the insertion-ordered stats dict
(`ambassador_stats`). -/
def addTweetToStats (acc : List AmbStats) (t : XRow) : List AmbStats :=
  if acc.any (fun s => s.name = t.Ambassador) then
    acc.map (fun s => if s.name = t.Ambassador then bumpStats s t else s)
  else
    acc ++ [bumpStats (initStats t.Ambassador) t]

/-- The grouping-and-summing loop of `get_leaderboard`. -/
def aggregateX (rows : List XRow) : List AmbStats :=
  rows.foldl addTweetToStats []

/-- `list(ambassador_stats.values())` sorted descending by
`total_impressions` (Python's stable sort). -/
def xLeaderboard (rows : List XRow) : List AmbStats :=
  pySortDescBy (fun s => s.total_impressions) (aggregateX rows)

/-- The shape of what `get_leaderboard` returns: a
`(leaderboard, total)` pair — or, on the zero-row path, a bare list. -/
inductive LeaderboardResult where
  | pair (lb : List AmbStats) (total : Int)
  | bare (lb : List AmbStats)
  deriving DecidableEq, Repr

/-- Whether the result is a two-element pair a caller can unpack. -/
def isPair : LeaderboardResult → Bool
  | .pair _ _ => true
  | .bare _ => false

/-- `get_leaderboard` over the rows the query returned (`none` = the
query raised, landing in the `except` branch that returns `[], 0`; an
empty row list hits `if not result.data: return []`). -/
def get_leaderboard (queryResult : Option (List XRow)) : LeaderboardResult :=
  match queryResult with
  | none => .pair [] 0
  | some [] => .bare []
  | some rows =>
    .pair (xLeaderboard rows) ((rows.map (fun t => t.Impressions)).sum)

/-- A row of the `reddit` table as used by the combined leaderboard. -/
structure RedditRow where
  poster : String
  Score : Option Int
  Comments : Option Int
  Views : Option Int
  deriving DecidableEq, Repr

/-- `post.get("Views", 0) if post.get("Views") else 0`: the stored view
count, or 0 when the field is null (a stored 0 is falsy and also yields
0). -/
def redditViews (p : RedditRow) : Int :=
  p.Views.getD 0

/-- One ambassador's accumulated totals in `get_total_leaderboard`. -/
structure CombinedStats where
  name : String
  x_views : Int
  reddit_views : Int
  total_views : Int
  deriving DecidableEq, Repr

/-- Process one X row (already filtered to `Impressions > 500` by the
query) into `combined_stats`. -/
def addXToCombined (acc : List CombinedStats) (t : XRow) :
    List CombinedStats :=
  if acc.any (fun s => s.name = t.Ambassador) then
    acc.map (fun s =>
      if s.name = t.Ambassador then
        { s with x_views := s.x_views + t.Impressions,
                 total_views := s.total_views + t.Impressions }
      else s)
  else
    acc ++ [{ name := t.Ambassador, x_views := t.Impressions,
              reddit_views := 0, total_views := t.Impressions }]

/-- Process one Reddit row into `combined_stats`. -/
def addRedditToCombined (acc : List CombinedStats) (p : RedditRow) :
    List CombinedStats :=
  if acc.any (fun s => s.name = p.poster) then
    acc.map (fun s =>
      if s.name = p.poster then
        { s with reddit_views := s.reddit_views + redditViews p,
                 total_views := s.total_views + redditViews p }
      else s)
  else
    acc ++ [{ name := p.poster, x_views := 0, reddit_views := redditViews p,
              total_views := redditViews p }]

/-- The `combined_stats` dict of `get_total_leaderboard`: X rows with
more than 500 impressions (the query's `.gt("Impressions", 500)`), then
all Reddit rows with a non-null score (the query's
`.not_.is_("Score", "null")`). -/
def combinedStats (xAll : List XRow) (redditAll : List RedditRow) :
    List CombinedStats :=
  (redditAll.filter (fun p => p.Score.isSome)).foldl addRedditToCombined
    ((xAll.filter (fun t => 500 < t.Impressions)).foldl addXToCombined [])

/-- `ambassador["name"].lower() == "tony"`: the one special-cased
entry. -/
def isTony (s : CombinedStats) : Bool :=
  pyLower s.name = "tony".data

/-- One iteration of the loop separating Tony from the other
ambassadors: a Tony-named entry replaces the held `tony_entry`, everyone
else is appended in order. -/
def splitTonyStep (acc : Option CombinedStats × List CombinedStats)
    (s : CombinedStats) : Option CombinedStats × List CombinedStats :=
  if isTony s then (some s, acc.2) else (acc.1, acc.2 ++ [s])

/-- `get_total_leaderboard`: combine both platforms, sort the non-Tony
entries descending by `total_views`, and append Tony at the bottom when
present. -/
def get_total_leaderboard (xAll : List XRow) (redditAll : List RedditRow) :
    List CombinedStats :=
  let split := (combinedStats xAll redditAll).foldl splitTonyStep (none, [])
  pySortDescBy (fun s => s.total_views) split.2 ++ split.1.toList

/-- A sample leaderboard row. -/
def sampleXRow : XRow :=
  { Ambassador := "alice", Impressions := 1000, Likes := 1, Replies := 2,
    Retweets := 3 }

/-- The spec's leaderboard scenario: rows A 100, B 200, A 50. -/
def scenarioRows : List XRow :=
  [{ Ambassador := "alice", Impressions := 100, Likes := 1, Replies := 1,
     Retweets := 1 },
   { Ambassador := "bob", Impressions := 200, Likes := 0, Replies := 0,
     Retweets := 0 },
   { Ambassador := "alice", Impressions := 50, Likes := 2, Replies := 0,
     Retweets := 1 }]

/-- X rows containing a Tony entry with the top score. -/
def tonyXRows : List XRow :=
  [{ Ambassador := "alice", Impressions := 1000, Likes := 0, Replies := 0,
     Retweets := 0 },
   { Ambassador := "Tony", Impressions := 900000, Likes := 0, Replies := 0,
     Retweets := 0 }]

/-! ## Theorems -/

theorem mem_pyInsert (le : α → α → Bool) (x a : α) (l : List α) :
    a ∈ pyInsert le x l ↔ a = x ∨ a ∈ l := by
  induction l with
  | nil => simp [pyInsert]
  | cons y ys ih =>
    simp only [pyInsert]
    by_cases h : le x y
    · simp [h]
    · simp [h, ih]
      tauto

theorem mem_pySort (le : α → α → Bool) (a : α) (l : List α) :
    a ∈ pySort le l ↔ a ∈ l := by
  induction l with
  | nil => simp [pySort]
  | cons x xs ih => simp [pySort, mem_pyInsert, ih]

theorem pairwise_pyInsert (le : α → α → Bool)
    (htot : ∀ a b, le a b = true ∨ le b a = true)
    (htrans : ∀ a b c, le a b = true → le b c = true → le a c = true)
    (x : α) (l : List α) (hl : l.Pairwise (fun a b => le a b = true)) :
    (pyInsert le x l).Pairwise (fun a b => le a b = true) := by
  induction l with
  | nil => simp [pyInsert]
  | cons y ys ih =>
    rw [List.pairwise_cons] at hl
    obtain ⟨hy, hys⟩ := hl
    simp only [pyInsert]
    by_cases h : le x y = true
    · rw [if_pos h]
      refine List.Pairwise.cons ?_ (List.Pairwise.cons hy hys)
      intro b hb
      rcases List.mem_cons.mp hb with hb | hb
      · rw [hb]; exact h
      · exact htrans x y b h (hy b hb)
    · rw [if_neg h]
      refine List.Pairwise.cons ?_ (ih hys)
      intro b hb
      rw [mem_pyInsert] at hb
      rcases hb with hb | hb
      · rw [hb]
        rcases htot x y with h' | h'
        · exact absurd h' h
        · exact h'
      · exact hy b hb

theorem pairwise_pySort (le : α → α → Bool)
    (htot : ∀ a b, le a b = true ∨ le b a = true)
    (htrans : ∀ a b c, le a b = true → le b c = true → le a c = true)
    (l : List α) : (pySort le l).Pairwise (fun a b => le a b = true) := by
  induction l with
  | nil => simp [pySort]
  | cons x xs ih => exact pairwise_pyInsert le htot htrans x (pySort le xs) ih

theorem filter_pyInsert (le : α → α → Bool) (key : α → Int)
    (hkey : ∀ a b, le a b = false → key a ≠ key b)
    (x : α) (l : List α) (v : Int) :
    (pyInsert le x l).filter (fun a => key a = v) =
      (if key x = v then [x] else []) ++ l.filter (fun a => key a = v) := by
  induction l with
  | nil => by_cases h : key x = v <;> simp [pyInsert, h]
  | cons y ys ih =>
    simp only [pyInsert]
    by_cases h : le x y = true
    · rw [if_pos h]
      by_cases hx : key x = v <;> by_cases hyv : key y = v <;>
        simp [List.filter, hx, hyv]
    · rw [if_neg h]
      have hy : key x ≠ key y := hkey x y (by simpa using h)
      by_cases hx : key x = v
      · have hyv : ¬ (key y = v) := fun hv => hy (hx.trans hv.symm)
        simp [List.filter, hx, hyv, ih]
      · by_cases hyv : key y = v <;>
          simp [List.filter, hx, hyv, ih]

theorem filter_pySort (le : α → α → Bool) (key : α → Int)
    (hkey : ∀ a b, le a b = false → key a ≠ key b)
    (l : List α) (v : Int) :
    (pySort le l).filter (fun a => key a = v) = l.filter (fun a => key a = v) := by
  induction l with
  | nil => simp [pySort]
  | cons x xs ih =>
    rw [pySort, filter_pyInsert le key hkey, ih]
    by_cases hx : key x = v <;> simp [List.filter, hx, decide_eq_true_eq]

theorem pairwise_pySortAscBy (key : α → Int) (l : List α) :
    (pySortAscBy key l).Pairwise (fun a b => key a ≤ key b) := by
  have h := pairwise_pySort (fun a b => decide (key a ≤ key b))
    (fun a b => by rcases le_total (key a) (key b) with h | h <;> simp [h])
    (fun a b c hab hbc => by
      simp only [decide_eq_true_eq] at hab hbc ⊢; omega) l
  refine h.imp ?_
  intro a b hab
  simpa using hab

theorem pairwise_pySortDescBy (key : α → Int) (l : List α) :
    (pySortDescBy key l).Pairwise (fun a b => key b ≤ key a) := by
  have h := pairwise_pySort (fun a b => decide (key b ≤ key a))
    (fun a b => by rcases le_total (key a) (key b) with h | h <;> simp [h])
    (fun a b c hab hbc => by
      simp only [decide_eq_true_eq] at hab hbc ⊢; omega) l
  refine h.imp ?_
  intro a b hab
  simpa using hab

theorem filter_pySortAscBy (key : α → Int) (l : List α) (v : Int) :
    (pySortAscBy key l).filter (fun a => key a = v) = l.filter (fun a => key a = v) :=
  filter_pySort _ key
    (fun a b h => by
      have : ¬ (key a ≤ key b) := by simpa using h
      omega) l v

theorem filter_pySortDescBy (key : α → Int) (l : List α) (v : Int) :
    (pySortDescBy key l).filter (fun a => key a = v) = l.filter (fun a => key a = v) :=
  filter_pySort _ key
    (fun a b h => by
      have : ¬ (key b ≤ key a) := by simpa using h
      omega) l v

theorem tweetReady_iff_classify (t : Tweet) (now : Int) :
    tweetReady now t = true ↔ classify t now = some .ready := by
  unfold tweetReady classify
  cases t.submitted_date with
  | none => simp
  | some s =>
    dsimp only
    by_cases h1 : now - threeDaysSecs < s
    · simp [h1, show ¬ (s ≤ now - threeDaysSecs) by omega]
    · have h1' : s ≤ now - threeDaysSecs := by omega
      rw [if_neg h1]
      by_cases h2 : t.final_update
      · simp [h1', h2]
      · by_cases h3 : t.impressions = 0 ∨ t.last_updated.getD s = s
        · simp [h1', h2, h3]
        · simp [h1', h2, h3]


/-- C1 (amended).  For every item whose `submitted_at` parses, `classify`
returns `tooNew` when `now - submitted_at < 3` days, `final` when the
item is at least 3 days old and `finalized` is true, and — for an aged,
non-finalized item — `ready` exactly when additionally its impressions
are `0` or its `last_updated` equals its `submitted_date` (the
never-successfully-refreshed heuristic); `classify` never returns `ready`
for an item younger than 3 days. -/
theorem c1_classify_corrected (t : Tweet) (now s : Int)
    (h : t.submitted_date = some s) :
    (now - s < threeDaysSecs → classify t now = some Classification.tooNew) ∧
    (threeDaysSecs ≤ now - s → t.final_update = true →
      classify t now = some Classification.final) ∧
    (threeDaysSecs ≤ now - s → t.final_update = false →
      (classify t now = some Classification.ready ↔
        (t.impressions = 0 ∨ t.last_updated.getD s = s))) ∧
    (classify t now = some Classification.ready → threeDaysSecs ≤ now - s) := by
  unfold classify
  rw [h]
  dsimp only
  refine ⟨?_, ?_, ?_, ?_⟩
  · intro hage
    rw [if_pos (by omega)]
  · intro hage hfin
    rw [if_neg (by omega), if_pos hfin]
  · intro hage hfin
    rw [if_neg (by omega), if_neg (by simp [hfin])]
    by_cases h3 : t.impressions = 0 ∨ t.last_updated.getD s = s
    · simp [h3]
    · simp [h3]
  · intro hr
    by_contra hage
    rw [if_pos (by omega)] at hr
    exact Classification.noConfusion (Option.some.inj hr)

/-- C1, counterexample to the claim as stated: `heuristicTweet` is more
than 3 days old at time `400000`, is not finalized, yet is classified
`alreadyUpdated` rather than `ready`, because its impressions are non-zero
and its `last_updated` differs from its `submitted_date`. -/
theorem c1_classify_counterexample :
    heuristicTweet.submitted_date = some 0 ∧
    heuristicTweet.final_update = false ∧
    threeDaysSecs ≤ 400000 - 0 ∧
    heuristicTweet.impressions ≠ 0 ∧
    heuristicTweet.last_updated.getD 0 ≠ 0 ∧
    classify heuristicTweet 400000 = some Classification.alreadyUpdated ∧
    classify heuristicTweet 400000 ≠ some Classification.ready := by
  refine ⟨rfl, rfl, by decide, by decide, by decide, ?_, ?_⟩ <;> decide

/-- Witness for C1: a 3.5-day-old, never-refreshed tweet is `ready`. -/
theorem c1_classify_witness :
    classify (Tweet.mk 2 (some 0) none 0 false) 300000 = some Classification.ready :=
  ((c1_classify_corrected (Tweet.mk 2 (some 0) none 0 false) 300000 0 rfl).2.2.1
    (by decide) rfl).mpr (Or.inl rfl)

theorem countOf_setCount (counts : ApiCount) (m : String) (n : Nat) :
    countOf (setCount counts m n) m = n := by
  induction counts with
  | nil => simp [setCount, countOf, List.lookup]
  | cons p rest ih =>
    obtain ⟨k, v⟩ := p
    simp only [setCount]
    by_cases h : k = m
    · rw [if_pos h]
      simp [countOf, List.lookup, h]
    · rw [if_neg h]
      have hmk : (m == k) = false := beq_eq_false_iff_ne.mpr (Ne.symm h)
      simpa [countOf, List.lookup, hmk] using ih

theorem countOf_fetch (o : FetchOutcome) (month : String) (counts : ApiCount) :
    countOf (fetch_tweet_impressions o month counts).2 month =
      countOf counts month + 1 := by
  cases o <;>
    simp [fetch_tweet_impressions, increment_api_count, countOf_setCount]

theorem countOf_runFetches (month : String) (outcomes : List FetchOutcome)
    (counts : ApiCount) :
    countOf (runFetches month outcomes counts) month =
      countOf counts month + outcomes.length := by
  induction outcomes generalizing counts with
  | nil => simp [runFetches]
  | cons o os ih =>
    rw [runFetches, ih, countOf_fetch]
    simp only [List.length_cons]
    omega

/-- C3.  Every call of `fetch_tweet_impressions` increments the current
month's quota counter by exactly one, on the success path and on every
failure path (no data, not found, unauthorized, rate limited, other
error); after `N` fetch attempts in a month starting from an empty log
the counter reads `N`, and `remaining_calls` equals
`max(0, 100 - calls_made)` and is never negative. -/
theorem c3_quota_consume :
    (∀ (o : FetchOutcome) (month : String) (counts : ApiCount),
      countOf (fetch_tweet_impressions o month counts).2 month =
        countOf counts month + 1) ∧
    (∀ (outcomes : List FetchOutcome) (month : String),
      countOf (runFetches month outcomes []) month = outcomes.length) ∧
    (∀ (outcomes : List FetchOutcome) (month : String),
      remaining_calls (countOf (runFetches month outcomes []) month) =
        max 0 (100 - (outcomes.length : Int)) ∧
      0 ≤ remaining_calls (countOf (runFetches month outcomes []) month)) := by
  refine ⟨countOf_fetch, ?_, ?_⟩
  · intro outcomes month
    rw [countOf_runFetches]
    simp [countOf]
  · intro outcomes month
    rw [countOf_runFetches]
    simp only [countOf, List.lookup, Option.getD, remaining_calls]
    constructor
    · norm_num
    · exact le_max_left 0 _

theorem updateTweetList_snd (oracle : Nat → Option Nat) (now : Int)
    (tid : Nat) (ts : List Tweet) :
    (updateTweetList oracle now tid ts).2 =
      ts.any (fun t => t.tweet_id = tid) := by
  induction ts with
  | nil => simp [updateTweetList]
  | cons t ts ih =>
    simp only [updateTweetList]
    by_cases h : t.tweet_id = tid
    · rw [if_pos h]
      cases oracle tid <;> simp [h]
    · rw [if_neg h]
      simp [h, ih]

theorem updateTweetList_map_id (oracle : Nat → Option Nat) (now : Int)
    (tid : Nat) (ts : List Tweet) :
    (updateTweetList oracle now tid ts).1.map (fun t => t.tweet_id) =
      ts.map (fun t => t.tweet_id) := by
  induction ts with
  | nil => simp [updateTweetList]
  | cons t ts ih =>
    simp only [updateTweetList]
    by_cases h : t.tweet_id = tid
    · rw [if_pos h]
      cases oracle tid <;> simp [applyFetch, ih]
    · rw [if_neg h]
      simp [ih]

theorem any_id_eq_of_map_id_eq (ts ts' : List Tweet)
    (h : ts'.map (fun t => t.tweet_id) = ts.map (fun t => t.tweet_id))
    (tid : Nat) :
    ts'.any (fun t => t.tweet_id = tid) = ts.any (fun t => t.tweet_id = tid) := by
  induction ts generalizing ts' with
  | nil =>
    cases ts' with
    | nil => rfl
    | cons t' l' => simp at h
  | cons t l ih =>
    cases ts' with
    | nil => simp at h
    | cons t' l' =>
      simp only [List.map_cons, List.cons.injEq] at h
      simp only [List.any_cons, h.1, ih l' h.2]

theorem updateAmbassador_snd (oracle : Nat → Option Nat) (now : Int)
    (tid : Nat) (amb : String) (data : TweetsData) :
    (updateAmbassador oracle now tid amb data).2 = hasTweet data amb tid := by
  induction data with
  | nil => simp [updateAmbassador, hasTweet]
  | cons p rest ih =>
    obtain ⟨name, ts⟩ := p
    simp only [updateAmbassador, hasTweet]
    by_cases h : name = amb
    · rw [if_pos h, if_pos h]
      exact updateTweetList_snd oracle now tid ts
    · rw [if_neg h, if_neg h]
      exact ih

theorem hasTweet_updateAmbassador (oracle : Nat → Option Nat) (now : Int)
    (tid : Nat) (amb : String) (data : TweetsData) (a : String) (i : Nat) :
    hasTweet (updateAmbassador oracle now tid amb data).1 a i =
      hasTweet data a i := by
  induction data with
  | nil => simp [updateAmbassador]
  | cons p rest ih =>
    obtain ⟨name, ts⟩ := p
    simp only [updateAmbassador]
    by_cases h : name = amb
    · rw [if_pos h]
      simp only [hasTweet]
      by_cases ha : name = a
      · rw [if_pos ha, if_pos ha]
        exact any_id_eq_of_map_id_eq ts _
          (updateTweetList_map_id oracle now tid ts) i
      · rw [if_neg ha, if_neg ha]
    · rw [if_neg h]
      simp only [hasTweet]
      by_cases ha : name = a
      · rw [if_pos ha, if_pos ha]
      · rw [if_neg ha, if_neg ha]
        exact ih

theorem runReady_trace (oracle : Nat → Option Nat) (now : Int)
    (rs : List ReadyTweet) (data : TweetsData) (calls : Nat)
    (h : ∀ r ∈ rs, hasTweet data r.ambassador r.tweet_id = true) :
    (runReady oracle now rs data calls).trace = rs.map (fun r => r.tweet_id) ∧
    (runReady oracle now rs data calls).calls = calls + rs.length := by
  induction rs generalizing data calls with
  | nil => simp [runReady]
  | cons r rs ih =>
    have hr : (updateAmbassador oracle now r.tweet_id r.ambassador data).2 = true := by
      rw [updateAmbassador_snd]
      exact h r (List.mem_cons_self r rs)
    have htail : ∀ r' ∈ rs,
        hasTweet (updateAmbassador oracle now r.tweet_id r.ambassador data).1
          r'.ambassador r'.tweet_id = true := by
      intro r' hr'
      rw [hasTweet_updateAmbassador]
      exact h r' (List.mem_cons_of_mem r hr')
    obtain ⟨h1, h2⟩ :=
      ih (updateAmbassador oracle now r.tweet_id r.ambassador data).1
        (calls + 1) htail
    simp only [runReady, hr, if_true, List.map_cons, List.length_cons, h1, h2]
    constructor
    · rfl
    · omega

theorem mem_readyEntries (now : Int) (data : TweetsData) (r : ReadyTweet) :
    r ∈ readyEntries now data ↔
      ∃ p ∈ data, ∃ t ∈ p.2, tweetReady now t = true ∧
        r = ⟨p.1, t.tweet_id, t.submitted_date.getD 0⟩ := by
  induction data with
  | nil => simp [readyEntries]
  | cons p rest ih =>
    obtain ⟨name, ts⟩ := p
    simp only [readyEntries, List.mem_append, List.mem_map, List.mem_filter,
      List.mem_cons, ih]
    constructor
    · rintro (⟨t, ⟨ht, hready⟩, rfl⟩ | ⟨q, hq, t, ht, hready, rfl⟩)
      · exact ⟨(name, ts), Or.inl rfl, t, ht, hready, rfl⟩
      · exact ⟨q, Or.inr hq, t, ht, hready, rfl⟩
    · rintro ⟨q, hq | hq, t, ht, hready, rfl⟩
      · subst hq
        exact Or.inl ⟨t, ⟨ht, hready⟩, rfl⟩
      · exact Or.inr ⟨q, hq, t, ht, hready, rfl⟩

theorem hasTweet_of_mem_keys (data : TweetsData) (name : String)
    (ts : List Tweet) (hnd : (data.map Prod.fst).Nodup)
    (hmem : (name, ts) ∈ data) (tid : Nat)
    (ht : ts.any (fun t => t.tweet_id = tid) = true) :
    hasTweet data name tid = true := by
  induction data with
  | nil => simp at hmem
  | cons p rest ih =>
    obtain ⟨k, vs⟩ := p
    simp only [List.map_cons, List.nodup_cons] at hnd
    rcases List.mem_cons.mp hmem with heq | hmem'
    · injection heq with hk hv
      simp only [hasTweet, if_pos hk.symm]
      rw [← hv]
      exact ht
    · have hk : k ≠ name := fun h => hnd.1 (h ▸ List.mem_map_of_mem Prod.fst hmem')
      simp only [hasTweet, if_neg hk]
      exact ih hnd.2 hmem'

theorem ready_hasTweet (data : TweetsData) (now : Int)
    (hnd : (data.map Prod.fst).Nodup) :
    ∀ r ∈ get_tweets_ready_for_update data now,
      hasTweet data r.ambassador r.tweet_id = true := by
  intro r hr
  have hr' : r ∈ readyEntries now data :=
    (mem_pySort _ r _).mp hr
  obtain ⟨p, hp, t, htmem, _, rfl⟩ := (mem_readyEntries now data r).mp hr'
  exact hasTweet_of_mem_keys data p.1 p.2 hnd hp t.tweet_id
    (List.any_eq_true.mpr ⟨t, htmem, by simp⟩)

/-- C2 (amended).  The batch refresh applies no quota budget at all: it
issues exactly one fetch attempt per entry of the sorted ready list
(given unique ambassador keys, as in a Python dict), regardless of
`max_items` or of the remaining monthly quota, and every attempt bumps
the month's call counter — so when the ready list is longer than the
remaining quota the batch exceeds it. -/
theorem c2_no_quota_budget (oracle : Nat → Option Nat) (now : Int)
    (data : TweetsData) (calls : Nat)
    (hnd : (data.map Prod.fst).Nodup) :
    (update_smart_impressions oracle now data calls).trace.length =
      (get_tweets_ready_for_update data now).length ∧
    (update_smart_impressions oracle now data calls).calls =
      calls + (get_tweets_ready_for_update data now).length := by
  obtain ⟨h1, h2⟩ := runReady_trace oracle now
    (get_tweets_ready_for_update data now) data calls
    (ready_hasTweet data now hnd)
  rw [update_smart_impressions, h1, h2, List.length_map]
  exact ⟨rfl, rfl⟩

/-- Witness for C2 (amended): on a store with one ready tweet and the
month's counter already at 100, the batch still attempts 1 fetch. -/
theorem c2_no_quota_budget_witness :
    (update_smart_impressions cexOracle 400000 oneReadyData 100).trace.length =
      (get_tweets_ready_for_update oneReadyData 400000).length ∧
    (update_smart_impressions cexOracle 400000 oneReadyData 100).calls =
      100 + (get_tweets_ready_for_update oneReadyData 400000).length :=
  c2_no_quota_budget cexOracle 400000 oneReadyData 100 (by decide)

/-- C2, counterexample to the claim as stated: with `calls_made = 100`
the remaining quota is 0, yet the batch over a store with one ready
tweet issues 1 fetch attempt — more than the remaining quota. -/
theorem c2_quota_counterexample :
    remaining_calls 100 = 0 ∧
    (update_smart_impressions cexOracle 400000 oneReadyData 100).trace.length = 1 ∧
    ¬ (((update_smart_impressions cexOracle 400000 oneReadyData 100).trace.length : Int)
        ≤ remaining_calls 100) := by
  refine ⟨by decide, by decide, by decide⟩

/-- C6 (amended).  The batch refresh processes ready items in ascending
order of `submitted_date` (oldest first), and — having no quota budget —
attempts exactly the whole sorted ready list, in that order: the trace of
fetched tweet ids is the id sequence of the sorted ready list. -/
theorem c6_oldest_first_corrected (oracle : Nat → Option Nat) (now : Int)
    (data : TweetsData) (calls : Nat)
    (hnd : (data.map Prod.fst).Nodup) :
    (get_tweets_ready_for_update data now).Pairwise
      (fun a b => a.submitted_date ≤ b.submitted_date) ∧
    (update_smart_impressions oracle now data calls).trace =
      (get_tweets_ready_for_update data now).map (fun r => r.tweet_id) := by
  refine ⟨pairwise_pySortAscBy _ _, ?_⟩
  exact (runReady_trace oracle now (get_tweets_ready_for_update data now)
    data calls (ready_hasTweet data now hnd)).1

/-- Witness for C6 (amended): three ready tweets submitted at
0 < 1000 < 2000 are fetched in the order of their ids 1, 2, 3. -/
theorem c6_oldest_first_witness :
    (get_tweets_ready_for_update threeReadyData 400000).Pairwise
      (fun a b => a.submitted_date ≤ b.submitted_date) ∧
    (update_smart_impressions cexOracle 400000 threeReadyData 98).trace =
      (get_tweets_ready_for_update threeReadyData 400000).map
        (fun r => r.tweet_id) :=
  c6_oldest_first_corrected cexOracle 400000 threeReadyData 98 (by decide)

/-- C6, counterexample to the claim as stated: with ready submission
times T1 < T2 < T3 and remaining quota (budget) 2, the code attempts all
three items, not exactly the two oldest. -/
theorem c6_budget_counterexample :
    remaining_calls 98 = 2 ∧
    (update_smart_impressions cexOracle 400000 threeReadyData 98).trace = [1, 2, 3] ∧
    (update_smart_impressions cexOracle 400000 threeReadyData 98).trace.length ≠ 2 := by
  refine ⟨by decide, by decide, by decide⟩

theorem tweetEvolves_refl (oracle : Nat → Option Nat) (now : Int)
    (t : Tweet) : tweetEvolves oracle now t t :=
  Or.inl rfl

theorem tweetEvolves_trans (oracle : Nat → Option Nat) (now : Int)
    (t t' t'' : Tweet) (h1 : tweetEvolves oracle now t t')
    (h2 : tweetEvolves oracle now t' t'') :
    tweetEvolves oracle now t t'' := by
  rcases h1 with rfl | ⟨v, hv, rfl⟩
  · exact h2
  · rcases h2 with rfl | ⟨v', hv', rfl⟩
    · exact Or.inr ⟨v, hv, rfl⟩
    · exact Or.inr ⟨v', hv', rfl⟩

theorem forall₂_tweetEvolves_refl (oracle : Nat → Option Nat) (now : Int)
    (ts : List Tweet) : List.Forall₂ (tweetEvolves oracle now) ts ts :=
  List.forall₂_same.mpr (fun t _ => tweetEvolves_refl oracle now t)

theorem forall₂_tweetEvolves_trans (oracle : Nat → Option Nat) (now : Int)
    (l₁ l₂ l₃ : List Tweet) (h1 : List.Forall₂ (tweetEvolves oracle now) l₁ l₂)
    (h2 : List.Forall₂ (tweetEvolves oracle now) l₂ l₃) :
    List.Forall₂ (tweetEvolves oracle now) l₁ l₃ := by
  induction h1 generalizing l₃ with
  | nil =>
    cases h2
    exact List.Forall₂.nil
  | cons h hl ih =>
    cases h2 with
    | cons h' hl' =>
      exact List.Forall₂.cons (tweetEvolves_trans oracle now _ _ _ h h') (ih _ hl')

theorem dataEvolves_refl (oracle : Nat → Option Nat) (now : Int)
    (d : TweetsData) : dataEvolves oracle now d d :=
  List.forall₂_same.mpr
    (fun p _ => ⟨rfl, forall₂_tweetEvolves_refl oracle now p.2⟩)

theorem dataEvolves_trans (oracle : Nat → Option Nat) (now : Int)
    (d₁ d₂ d₃ : TweetsData) (h1 : dataEvolves oracle now d₁ d₂)
    (h2 : dataEvolves oracle now d₂ d₃) : dataEvolves oracle now d₁ d₃ := by
  unfold dataEvolves at h1 h2 ⊢
  induction h1 generalizing d₃ with
  | nil =>
    cases h2
    exact List.Forall₂.nil
  | cons h hl ih =>
    cases h2 with
    | cons h' hl' =>
      refine List.Forall₂.cons ⟨h.1.trans h'.1, ?_⟩ (ih _ hl')
      exact forall₂_tweetEvolves_trans oracle now _ _ _ h.2 h'.2

theorem updateTweetList_evolves (oracle : Nat → Option Nat) (now : Int)
    (tid : Nat) (ts : List Tweet) :
    List.Forall₂ (tweetEvolves oracle now) ts
      (updateTweetList oracle now tid ts).1 := by
  induction ts with
  | nil => exact List.Forall₂.nil
  | cons t ts ih =>
    simp only [updateTweetList]
    by_cases h : t.tweet_id = tid
    · rw [if_pos h]
      cases horacle : oracle tid with
      | some v =>
        exact List.Forall₂.cons
          (Or.inr ⟨v, by rw [h]; exact horacle, rfl⟩)
          (forall₂_tweetEvolves_refl oracle now ts)
      | none =>
        exact List.Forall₂.cons (tweetEvolves_refl oracle now t)
          (forall₂_tweetEvolves_refl oracle now ts)
    · rw [if_neg h]
      exact List.Forall₂.cons (tweetEvolves_refl oracle now t) ih

theorem updateAmbassador_evolves (oracle : Nat → Option Nat) (now : Int)
    (tid : Nat) (amb : String) (data : TweetsData) :
    dataEvolves oracle now data
      (updateAmbassador oracle now tid amb data).1 := by
  induction data with
  | nil => exact List.Forall₂.nil
  | cons p rest ih =>
    obtain ⟨name, ts⟩ := p
    simp only [updateAmbassador]
    by_cases h : name = amb
    · rw [if_pos h]
      exact List.Forall₂.cons ⟨rfl, updateTweetList_evolves oracle now tid ts⟩
        (dataEvolves_refl oracle now rest)
    · rw [if_neg h]
      exact List.Forall₂.cons ⟨rfl, forall₂_tweetEvolves_refl oracle now ts⟩ ih

theorem runReady_evolves (oracle : Nat → Option Nat) (now : Int)
    (rs : List ReadyTweet) (data : TweetsData) (calls : Nat) :
    dataEvolves oracle now data (runReady oracle now rs data calls).data := by
  induction rs generalizing data calls with
  | nil => exact dataEvolves_refl oracle now data
  | cons r rs ih =>
    simp only [runReady]
    exact dataEvolves_trans oracle now _ _ _
      (updateAmbassador_evolves oracle now r.tweet_id r.ambassador data)
      (ih _ _)

/-- C7.  Across any batch run, every stored tweet is either untouched or
overwritten by a successful fetch of its id; in particular a tweet whose
fetch fails (oracle returns `none`) keeps its `impressions`,
`last_updated` and `final_update` unchanged, so it stays non-final and
eligible for a future batch.  The batch never stops: on the three-tweet
store whose middle (id 2) fetch fails, the run still fetches ids 1, 2, 3,
finalizes tweets 1 and 3, and leaves tweet 2 exactly as it was. -/
theorem c7_failed_fetch_leaves_item :
    (∀ (oracle : Nat → Option Nat) (now : Int) (data : TweetsData) (calls : Nat),
      dataEvolves oracle now data
        (update_smart_impressions oracle now data calls).data) ∧
    (∀ (oracle : Nat → Option Nat) (now : Int) (data : TweetsData) (calls : Nat),
      List.Forall₂ (fun p q => p.1 = q.1 ∧
          List.Forall₂ (fun t t' => oracle t.tweet_id = none → t' = t) p.2 q.2)
        data (update_smart_impressions oracle now data calls).data) ∧
    (update_smart_impressions failMidOracle 400000 threeReadyData 0).data =
      [("alice", [{ tweet_id := 1, submitted_date := some 0,
                    last_updated := some 400000, impressions := 111,
                    final_update := true },
                  { tweet_id := 2, submitted_date := some 1000,
                    last_updated := none, impressions := 0,
                    final_update := false }]),
       ("bob",   [{ tweet_id := 3, submitted_date := some 2000,
                    last_updated := some 400000, impressions := 333,
                    final_update := true }])] ∧
    (update_smart_impressions failMidOracle 400000 threeReadyData 0).trace =
      [1, 2, 3] := by
  refine ⟨?_, ?_, by decide, by decide⟩
  · intro oracle now data calls
    exact runReady_evolves oracle now _ data calls
  · intro oracle now data calls
    have h := runReady_evolves oracle now
      (get_tweets_ready_for_update data now) data calls
    refine List.Forall₂.imp ?_ h
    rintro p q ⟨hname, hts⟩
    refine ⟨hname, List.Forall₂.imp ?_ hts⟩
    rintro t t' (rfl | ⟨v, hv, rfl⟩) hnone
    · rfl
    · rw [hnone] at hv
      exact absurd hv (by simp)

theorem lookupDate_updateDate_self (d : Int) (f : DailyRecord → DailyRecord)
    (hf : ∀ r, (f r).date = r.date) (table : DailyTable) :
    lookupDate (updateDate d f table) d = (lookupDate table d).map f := by
  induction table with
  | nil => simp [updateDate, lookupDate]
  | cons r rs ih =>
    simp only [updateDate]
    by_cases h : r.date = d
    · rw [if_pos h]
      simp [lookupDate, List.find?_cons, hf r, h]
    · rw [if_neg h]
      simpa [lookupDate, List.find?_cons, h] using ih

theorem lookupDate_updateDate_ne (d d' : Int) (hne : d' ≠ d)
    (f : DailyRecord → DailyRecord) (hf : ∀ r, (f r).date = r.date)
    (table : DailyTable) :
    lookupDate (updateDate d f table) d' = lookupDate table d' := by
  induction table with
  | nil => simp [updateDate]
  | cons r rs ih =>
    simp only [updateDate]
    by_cases h : r.date = d
    · rw [if_pos h]
      have h1 : ¬ ((f r).date = d') := by rw [hf r, h]; exact fun hh => hne hh.symm
      have h2 : ¬ (r.date = d') := by rw [h]; exact fun hh => hne hh.symm
      simp [lookupDate, List.find?_cons, h1, h2]
    · rw [if_neg h]
      by_cases h2 : r.date = d'
      · simp [lookupDate, List.find?_cons, h2]
      · simpa [lookupDate, List.find?_cons, h2] using ih

theorem lookupDate_append_of_none (table l : DailyTable) (d : Int)
    (h : lookupDate table d = none) :
    lookupDate (table ++ l) d = lookupDate l d := by
  induction table with
  | nil => simp
  | cons r rs ih =>
    simp only [lookupDate, List.find?_cons] at h ⊢
    rcases h1 : decide (r.date = d) with _ | _
    · rw [h1] at h
      simp only [List.cons_append, lookupDate, List.find?_cons, h1]
      exact ih h
    · rw [h1] at h
      simp at h

theorem lookupDate_append_of_some (table l : DailyTable) (d : Int)
    (y : DailyRecord) (h : lookupDate table d = some y) :
    lookupDate (table ++ l) d = some y := by
  induction table with
  | nil => simp [lookupDate] at h
  | cons r rs ih =>
    simp only [lookupDate, List.find?_cons] at h ⊢
    rcases h1 : decide (r.date = d) with _ | _
    · rw [h1] at h
      simp only [List.cons_append, lookupDate, List.find?_cons, h1]
      exact ih h
    · rw [h1] at h
      simpa [List.cons_append, lookupDate, List.find?_cons, h1] using h

theorem updateDate_append_single (d : Int) (f : DailyRecord → DailyRecord)
    (table : DailyTable) (r : DailyRecord)
    (h : lookupDate table d = none) :
    updateDate d f (table ++ [r]) =
      table ++ [if r.date = d then f r else r] := by
  induction table with
  | nil =>
    by_cases hr : r.date = d <;> simp [updateDate, hr]
  | cons r0 rs ih =>
    by_cases h0 : r0.date = d
    · simp [lookupDate, List.find?_cons, h0] at h
    · have h' : lookupDate rs d = none := by
        simpa [lookupDate, List.find?_cons, h0] using h
      simp only [List.cons_append, updateDate, if_neg h0]
      rw [show rs.append [r] = rs ++ [r] from rfl, ih h']

theorem updateDate_comp (d : Int) (f g : DailyRecord → DailyRecord)
    (hf : ∀ r, (f r).date = r.date) (table : DailyTable) :
    updateDate d g (updateDate d f table) =
      updateDate d (fun r => g (f r)) table := by
  induction table with
  | nil => simp [updateDate]
  | cons r rs ih =>
    simp only [updateDate]
    by_cases h : r.date = d
    · rw [if_pos h]
      simp [updateDate, hf r, h]
    · rw [if_neg h]
      simp only [updateDate, if_neg h]
      rw [ih]

theorem calc_update_some (rows : List Int) (table : DailyTable)
    (today now : Int) (r0 : DailyRecord)
    (h0 : lookupDate table today = some r0) (y : DailyRecord)
    (hy : lookupDate table (today - 1) = some y) :
    calculate_daily_impressions rows table today now =
      updateDate today
        (dailyWrite rows.sum (max 0 (rows.sum - y.total_impressions)))
        table := by
  unfold calculate_daily_impressions
  rw [h0, hy]
  rfl

theorem calc_update_none (rows : List Int) (table : DailyTable)
    (today now : Int) (r0 : DailyRecord)
    (h0 : lookupDate table today = some r0)
    (hy : lookupDate table (today - 1) = none) :
    calculate_daily_impressions rows table today now =
      updateDate today (dailyWrite rows.sum (max 0 rows.sum)) table := by
  unfold calculate_daily_impressions
  rw [h0, hy]
  rfl

theorem calc_insert_some (rows : List Int) (table : DailyTable)
    (today now : Int) (h0 : lookupDate table today = none)
    (y : DailyRecord) (hy : lookupDate table (today - 1) = some y) :
    calculate_daily_impressions rows table today now =
      table ++ [{ date := today, total_impressions := rows.sum,
                  impressions_gained := max 0 (rows.sum - y.total_impressions),
                  created_at := now }] := by
  unfold calculate_daily_impressions
  rw [h0, hy]

theorem calc_insert_none (rows : List Int) (table : DailyTable)
    (today now : Int) (h0 : lookupDate table today = none)
    (hy : lookupDate table (today - 1) = none) :
    calculate_daily_impressions rows table today now =
      table ++ [{ date := today, total_impressions := rows.sum,
                  impressions_gained := 0, created_at := now }] := by
  unfold calculate_daily_impressions
  rw [h0, hy]
  simp

theorem dailyWrite_date (ct g : Int) (r : DailyRecord) :
    (dailyWrite ct g r).date = r.date := rfl

/-- C4 (amended).  When a snapshot for the previous day exists, running
`calculate_daily_impressions` a second time with unchanged totals leaves
the table exactly as after the first run (so the two calls yield the same
`DailySnapshot`); a second call through the hourly-throttled auto wrapper
within one hour of the record's creation changes nothing; and on
recomputation of an existing today-record the written totals depend only
on the current sum and on yesterday's lookup — never on today's
previously stored record (also when no yesterday record exists).  (When
no prior-day snapshot exists, a direct second call is *not* idempotent:
see the counterexample.) -/
theorem c4_recompute_corrected (rows : List Int) (today t0 t1 : Int) :
    (∀ (table : DailyTable) (y : DailyRecord),
      lookupDate table (today - 1) = some y →
      calculate_daily_impressions rows
          (calculate_daily_impressions rows table today t0) today t1 =
        calculate_daily_impressions rows table today t0) ∧
    (∀ (table : DailyTable) (r0 : DailyRecord),
      lookupDate table today = some r0 →
      t1 - r0.created_at < 3600 →
      auto_calculate_daily_impressions rows table today t1 = table) ∧
    (∀ (tableA tableB : DailyTable),
      lookupDate tableA (today - 1) = lookupDate tableB (today - 1) →
      (lookupDate tableA today).isSome = true →
      (lookupDate tableB today).isSome = true →
      (lookupDate (calculate_daily_impressions rows tableA today t1) today).map
          dailyVals =
        (lookupDate (calculate_daily_impressions rows tableB today t1) today).map
          dailyVals) := by
  have hne : (today - 1) ≠ today := by omega
  refine ⟨?_, ?_, ?_⟩
  · intro table y hy
    cases h0 : lookupDate table today with
    | none =>
      rw [calc_insert_some rows table today t0 h0 y hy]
      have hT1 : lookupDate
          (table ++ ([{ date := today, total_impressions := rows.sum,
                        impressions_gained :=
                          max 0 (rows.sum - y.total_impressions),
                        created_at := t0 }] : DailyTable)) today =
          some { date := today, total_impressions := rows.sum,
                 impressions_gained := max 0 (rows.sum - y.total_impressions),
                 created_at := t0 } := by
        rw [lookupDate_append_of_none table _ today h0]
        simp [lookupDate, List.find?_cons]
      have hT1y := lookupDate_append_of_some table
        ([{ date := today, total_impressions := rows.sum,
            impressions_gained := max 0 (rows.sum - y.total_impressions),
            created_at := t0 }] : DailyTable) (today - 1) y hy
      rw [calc_update_some rows _ today t1 _ hT1 y hT1y]
      rw [updateDate_append_single today _ table _ h0]
      simp [dailyWrite]
    | some r0 =>
      rw [calc_update_some rows table today t0 r0 h0 y hy]
      have hT1 : lookupDate
          (updateDate today
            (dailyWrite rows.sum (max 0 (rows.sum - y.total_impressions)))
            table) today =
          some (dailyWrite rows.sum (max 0 (rows.sum - y.total_impressions)) r0) := by
        rw [lookupDate_updateDate_self today _ (dailyWrite_date _ _) table, h0]
        rfl
      have hT1y : lookupDate
          (updateDate today
            (dailyWrite rows.sum (max 0 (rows.sum - y.total_impressions)))
            table) (today - 1) = some y := by
        rw [lookupDate_updateDate_ne today (today - 1) hne _
          (dailyWrite_date _ _) table]
        exact hy
      rw [calc_update_some rows _ today t1 _ hT1 y hT1y]
      rw [updateDate_comp today _ _ (dailyWrite_date _ _) table]
      exact congrArg (fun g => updateDate today g table) (funext fun r => rfl)
  · intro table r0 h0 hlt
    unfold auto_calculate_daily_impressions
    rw [h0]
    dsimp only
    rw [if_neg (by omega)]
  · intro tableA tableB hAB hA hB
    obtain ⟨rA, hrA⟩ := Option.isSome_iff_exists.mp hA
    obtain ⟨rB, hrB⟩ := Option.isSome_iff_exists.mp hB
    cases hy : lookupDate tableA (today - 1) with
    | none =>
      have hyB : lookupDate tableB (today - 1) = none := by rw [← hAB, hy]
      rw [calc_update_none rows tableA today t1 rA hrA hy,
        calc_update_none rows tableB today t1 rB hrB hyB]
      rw [lookupDate_updateDate_self today _ (dailyWrite_date _ _) tableA,
        lookupDate_updateDate_self today _ (dailyWrite_date _ _) tableB,
        hrA, hrB]
      rfl
    | some y =>
      have hyB : lookupDate tableB (today - 1) = some y := by rw [← hAB, hy]
      rw [calc_update_some rows tableA today t1 rA hrA y hy,
        calc_update_some rows tableB today t1 rB hrB y hyB]
      rw [lookupDate_updateDate_self today _ (dailyWrite_date _ _) tableA,
        lookupDate_updateDate_self today _ (dailyWrite_date _ _) tableB,
        hrA, hrB]
      rfl

/-- C4, counterexample to the claim as stated: with no prior-day record,
the first `calculate_daily_impressions` call stores today's baseline with
delta 0, and a direct second call 100 seconds later (well within the same
hour) overwrites the delta with the full current total 500 — a different
`DailySnapshot` from the first call's. -/
theorem c4_idempotence_counterexample :
    calculate_daily_impressions [500] [] 10 0 =
      [{ date := 10, total_impressions := 500, impressions_gained := 0,
         created_at := 0 }] ∧
    calculate_daily_impressions [500]
        (calculate_daily_impressions [500] [] 10 0) 10 100 =
      [{ date := 10, total_impressions := 500, impressions_gained := 500,
         created_at := 0 }] ∧
    (100 : Int) - 0 < 3600 ∧ (500 : Int) ≠ 0 := by
  refine ⟨by decide, by decide, by decide, by decide⟩

/-- Witness for C4 (amended): with a day-9 snapshot present, recomputing
day 10 a second time reproduces the same table. -/
theorem c4_recompute_witness :
    calculate_daily_impressions [500]
        (calculate_daily_impressions [500] yesterdayTable 10 0) 10 100 =
      calculate_daily_impressions [500] yesterdayTable 10 0 :=
  (c4_recompute_corrected [500] 10 0 100).1 yesterdayTable
    { date := 9, total_impressions := 400, impressions_gained := 0,
      created_at := 0 } (by decide)

/-- C5 (amended).  The snapshot written by `calculate_daily_impressions`
satisfies: when a previous-day record exists,
`delta = max(0, total - previous_day.total)` (on insert and on
recomputation alike); when no previous-day record exists, `delta = 0` on
the first insert of today's record, but `delta = max(0, total)` — the
full current total — on recomputation of an already-existing
today-record; in all cases the written delta is `>= 0`. -/
theorem c5_delta_clamped_corrected (rows : List Int) (table : DailyTable)
    (today now : Int) :
    (∀ y : DailyRecord, lookupDate table today = none →
      lookupDate table (today - 1) = some y →
      lookupDate (calculate_daily_impressions rows table today now) today =
        some { date := today, total_impressions := rows.sum,
               impressions_gained := max 0 (rows.sum - y.total_impressions),
               created_at := now }) ∧
    (lookupDate table today = none →
      lookupDate table (today - 1) = none →
      lookupDate (calculate_daily_impressions rows table today now) today =
        some { date := today, total_impressions := rows.sum,
               impressions_gained := 0, created_at := now }) ∧
    (∀ r0 y : DailyRecord, lookupDate table today = some r0 →
      lookupDate table (today - 1) = some y →
      (lookupDate (calculate_daily_impressions rows table today now)
          today).map dailyVals =
        some (rows.sum, max 0 (rows.sum - y.total_impressions))) ∧
    (∀ r0 : DailyRecord, lookupDate table today = some r0 →
      lookupDate table (today - 1) = none →
      (lookupDate (calculate_daily_impressions rows table today now)
          today).map dailyVals =
        some (rows.sum, max 0 rows.sum)) ∧
    (∀ r : DailyRecord,
      lookupDate (calculate_daily_impressions rows table today now) today =
        some r →
      0 ≤ r.impressions_gained) := by
  refine ⟨?_, ?_, ?_, ?_, ?_⟩
  · intro y h0 hy
    rw [calc_insert_some rows table today now h0 y hy]
    rw [lookupDate_append_of_none table _ today h0]
    simp [lookupDate, List.find?_cons]
  · intro h0 hy
    rw [calc_insert_none rows table today now h0 hy]
    rw [lookupDate_append_of_none table _ today h0]
    simp [lookupDate, List.find?_cons]
  · intro r0 y h0 hy
    rw [calc_update_some rows table today now r0 h0 y hy]
    rw [lookupDate_updateDate_self today _ (dailyWrite_date _ _) table, h0]
    rfl
  · intro r0 h0 hy
    rw [calc_update_none rows table today now r0 h0 hy]
    rw [lookupDate_updateDate_self today _ (dailyWrite_date _ _) table, h0]
    rfl
  · intro r hr
    cases h0 : lookupDate table today with
    | none =>
      cases hy : lookupDate table (today - 1) with
      | none =>
        rw [calc_insert_none rows table today now h0 hy,
          lookupDate_append_of_none table _ today h0] at hr
        have h2 : ({ date := today, total_impressions := rows.sum,
                     impressions_gained := 0,
                     created_at := now } : DailyRecord) = r := by
          apply Option.some.inj
          rw [← hr]
          simp [lookupDate, List.find?_cons]
        rw [← h2]
      | some y =>
        rw [calc_insert_some rows table today now h0 y hy,
          lookupDate_append_of_none table _ today h0] at hr
        have h2 : ({ date := today, total_impressions := rows.sum,
                     impressions_gained :=
                       max 0 (rows.sum - y.total_impressions),
                     created_at := now } : DailyRecord) = r := by
          apply Option.some.inj
          rw [← hr]
          simp [lookupDate, List.find?_cons]
        rw [← h2]
        exact le_max_left 0 _
    | some r0 =>
      cases hy : lookupDate table (today - 1) with
      | none =>
        rw [calc_update_none rows table today now r0 h0 hy,
          lookupDate_updateDate_self today _ (dailyWrite_date _ _) table,
          h0] at hr
        have h2 : dailyWrite rows.sum (max 0 rows.sum) r0 = r :=
          Option.some.inj hr
        rw [← h2]
        exact le_max_left 0 _
      | some y =>
        rw [calc_update_some rows table today now r0 h0 y hy,
          lookupDate_updateDate_self today _ (dailyWrite_date _ _) table,
          h0] at hr
        have h2 : dailyWrite rows.sum
            (max 0 (rows.sum - y.total_impressions)) r0 = r :=
          Option.some.inj hr
        rw [← h2]
        exact le_max_left 0 _

/-- C5, counterexample to the claim as stated: `staleTodayTable` has a
today-record (day 10) and no record for day 9; recomputation with a
current total of 500 writes `delta = 500`, not the baseline 0 that the
claim requires when no prior-day snapshot exists. -/
theorem c5_baseline_counterexample :
    lookupDate staleTodayTable (10 - 1) = none ∧
    calculate_daily_impressions [500] staleTodayTable 10 7200 =
      [{ date := 10, total_impressions := 500, impressions_gained := 500,
         created_at := 0 }] ∧
    (500 : Int) ≠ 0 := by
  refine ⟨by decide, by decide, by decide⟩

/-- Witness for C5 (amended): a first-ever run (empty table) writes
today's record with delta 0 regardless of the 500-strong total. -/
theorem c5_delta_witness :
    lookupDate (calculate_daily_impressions [500] [] 10 0) 10 =
      some { date := 10, total_impressions := 500, impressions_gained := 0,
             created_at := 0 } :=
  (c5_delta_clamped_corrected [500] [] 10 0).2.1 rfl rfl

/-- C9.  Whenever the database insert call executes without raising — the
URL extracts a non-empty id and the URL is not already stored — both
`add_new_tweet` and `add_new_reddit_post` return `True` as the success
flag, even when the insert returns no data: the conditional expression in
the return statement binds only to the message component, so the
"Failed to insert" outcome is buried inside the message slot as a nested
`(False, "Failed to insert")` tuple and is never observable as a `False`
result. -/
theorem c9_success_flag_always_true (ambX ambR urlX urlR : String)
    (existX existR : List String) (tidX pidR : String)
    (hX : extract_tweet_id urlX = some tidX) (hXne : tidX.isEmpty = false)
    (hXdup : existX.contains urlX = false)
    (hR : extract_reddit_id urlR = some pidR) (hRne : pidR.isEmpty = false)
    (hRdup : existR.contains urlR = false) :
    (∀ b, (add_new_tweet ambX urlX existX (InsertOutcome.ok b)).1 = true) ∧
    (add_new_tweet ambX urlX existX (InsertOutcome.ok false)).2 =
      ReturnValue.nested false "Failed to insert" ∧
    (∀ b, (add_new_reddit_post ambR urlR existR (InsertOutcome.ok b)).1 =
      true) ∧
    (add_new_reddit_post ambR urlR existR (InsertOutcome.ok false)).2 =
      ReturnValue.nested false "Failed to insert" := by
  have hXd : ¬ (urlX ∈ existX) := by simpa using hXdup
  have hRd : ¬ (urlR ∈ existR) := by simpa using hRdup
  refine ⟨?_, ?_, ?_, ?_⟩
  · intro b
    cases b <;> simp [add_new_tweet, hX, hXne, hXd]
  · simp [add_new_tweet, hX, hXne, hXd]
  · intro b
    cases b <;> simp [add_new_reddit_post, hR, hRne, hRd]
  · simp [add_new_reddit_post, hR, hRne, hRd]

/-- Witness for C9: concrete submissions whose insert returns no data
still come back with a `True` success flag. -/
theorem c9_success_flag_witness :
    (add_new_tweet "alice" "https://x.com/nolus/status/123456?s=20" []
      (InsertOutcome.ok false)).1 = true ∧
    (add_new_reddit_post "bob"
      "https://reddit.com/r/nolus/comments/abc123/title/" []
      (InsertOutcome.ok false)).1 = true :=
  have h := c9_success_flag_always_true "alice" "bob"
    "https://x.com/nolus/status/123456?s=20"
    "https://reddit.com/r/nolus/comments/abc123/title/" [] []
    "123456" "abc123" (by decide) (by decide) (by decide) (by decide)
    (by decide) (by decide)
  ⟨h.1 false, h.2.2.1 false⟩

/-- C10.  `get_leaderboard` has no uniform result shape: a failing query
returns the pair `([], 0)`, a query with at least one row returns a
`(leaderboard, total)` pair, but a query that succeeds with zero rows
returns a bare empty list — so a caller unpacking two values fails
exactly on the empty-data case. -/
theorem c10_result_shape :
    (∀ q : Option (List XRow),
      isPair (get_leaderboard q) = false ↔ q = some []) ∧
    get_leaderboard none = LeaderboardResult.pair [] 0 ∧
    (∀ rows : List XRow, rows ≠ [] →
      get_leaderboard (some rows) =
        LeaderboardResult.pair (xLeaderboard rows)
          ((rows.map (fun t => t.Impressions)).sum)) ∧
    get_leaderboard (some []) = LeaderboardResult.bare [] := by
  refine ⟨?_, rfl, ?_, rfl⟩
  · intro q
    match q with
    | none => simp [get_leaderboard, isPair]
    | some [] => simp [get_leaderboard, isPair]
    | some (r :: rs) => simp [get_leaderboard, isPair]
  · intro rows hne
    match rows, hne with
    | r :: rs, _ => rfl

/-- Witness for C10: a one-row query result comes back as an unpackable
pair. -/
theorem c10_result_shape_witness :
    get_leaderboard (some [sampleXRow]) =
      LeaderboardResult.pair (xLeaderboard [sampleXRow])
        (([sampleXRow].map (fun t => t.Impressions)).sum) :=
  c10_result_shape.2.2.1 [sampleXRow] (by decide)

theorem bumpStats_name (s : AmbStats) (t : XRow) :
    (bumpStats s t).name = s.name := rfl

theorem update_name (t : XRow) (a : AmbStats) :
    (if a.name = t.Ambassador then bumpStats a t else a).name = a.name := by
  by_cases h : a.name = t.Ambassador <;> simp [h, bumpStats]

theorem names_update (acc : List AmbStats) (t : XRow) :
    (acc.map (fun s => if s.name = t.Ambassador then bumpStats s t else s)).map
        (fun s => s.name) =
      acc.map (fun s => s.name) := by
  induction acc with
  | nil => rfl
  | cons s rest ih => simp only [List.map_cons, update_name, ih]

theorem aggregateX_append (rows : List XRow) (t : XRow) :
    aggregateX (rows ++ [t]) = addTweetToStats (aggregateX rows) t := by
  unfold aggregateX
  rw [List.foldl_append]
  rfl

theorem aggregateX_spec (rows : List XRow) :
    ((aggregateX rows).map (fun s => s.name)).Nodup ∧
    (∀ name : String, (∃ s ∈ aggregateX rows, s.name = name) ↔
      name ∈ rows.map (fun t => t.Ambassador)) ∧
    (∀ s ∈ aggregateX rows,
      s.tweets = (rows.filter (fun t => t.Ambassador = s.name)).length ∧
      s.total_impressions =
        ((rows.filter (fun t => t.Ambassador = s.name)).map
          (fun t => t.Impressions)).sum ∧
      s.total_likes =
        ((rows.filter (fun t => t.Ambassador = s.name)).map
          (fun t => t.Likes)).sum ∧
      s.total_replies =
        ((rows.filter (fun t => t.Ambassador = s.name)).map
          (fun t => t.Replies)).sum ∧
      s.total_retweets =
        ((rows.filter (fun t => t.Ambassador = s.name)).map
          (fun t => t.Retweets)).sum) := by
  induction rows using List.reverseRecOn with
  | nil => simp [aggregateX]
  | append_singleton rows t ih =>
    obtain ⟨ihN, ihC, ihS⟩ := ih
    rw [aggregateX_append]
    unfold addTweetToStats
    by_cases hmem : (aggregateX rows).any (fun s => s.name = t.Ambassador) = true
    · rw [if_pos hmem]
      refine ⟨?_, ?_, ?_⟩
      · rw [names_update]
        exact ihN
      · intro name
        constructor
        · rintro ⟨s', hs', rfl⟩
          obtain ⟨s, hs, rfl⟩ := List.mem_map.mp hs'
          rw [update_name]
          simp only [List.map_append, List.mem_append]
          exact Or.inl ((ihC s.name).mp ⟨s, hs, rfl⟩)
        · intro hname
          simp only [List.map_append, List.mem_append, List.map_cons,
            List.map_nil, List.mem_singleton] at hname
          rcases hname with hname | hname
          · obtain ⟨s, hs, rfl⟩ := (ihC name).mpr hname
            exact ⟨(if s.name = t.Ambassador then bumpStats s t else s),
              List.mem_map.mpr ⟨s, hs, rfl⟩, update_name t s⟩
          · obtain ⟨s, hs, hsn⟩ := List.any_eq_true.mp hmem
            have hsn' : s.name = t.Ambassador := by simpa using hsn
            refine ⟨(if s.name = t.Ambassador then bumpStats s t else s),
              List.mem_map.mpr ⟨s, hs, rfl⟩, ?_⟩
            rw [update_name, hsn', hname]
      · intro s' hs'
        obtain ⟨s, hs, heq⟩ := List.mem_map.mp hs'
        obtain ⟨h1, h2, h3, h4, h5⟩ := ihS s hs
        by_cases hname : s.name = t.Ambassador
        · rw [if_pos hname] at heq
          subst heq
          have htfil : List.filter (fun r : XRow =>
              decide (r.Ambassador = s.name)) [t] = [t] := by
            have hp : (decide (t.Ambassador = s.name)) = true := by
              simp [hname.symm]
            simp [List.filter, hp]
          refine ⟨?_, ?_, ?_, ?_, ?_⟩ <;>
            simp [List.filter_append, bumpStats_name, htfil, bumpStats,
              h1, h2, h3, h4, h5]
        · rw [if_neg hname] at heq
          subst heq
          have htfil : List.filter (fun r : XRow =>
              decide (r.Ambassador = s.name)) [t] = [] := by
            have hp : (decide (t.Ambassador = s.name)) = false := by
              simp only [decide_eq_false_iff_not]
              intro hh
              exact hname hh.symm
            simp [List.filter, hp]
          refine ⟨?_, ?_, ?_, ?_, ?_⟩ <;>
            simp [List.filter_append, htfil, h1, h2, h3, h4, h5]
    · rw [if_neg hmem]
      have hnot : ∀ s ∈ aggregateX rows, ¬ (s.name = t.Ambassador) := by
        intro s hs h
        exact hmem (List.any_eq_true.mpr ⟨s, hs, by simp [h]⟩)
      have hnew : (bumpStats (initStats t.Ambassador) t).name = t.Ambassador :=
        rfl
      have hcov : ¬ (t.Ambassador ∈ rows.map (fun r => r.Ambassador)) := by
        intro hin
        obtain ⟨s, hs, hsn⟩ := (ihC t.Ambassador).mpr hin
        exact hnot s hs hsn
      refine ⟨?_, ?_, ?_⟩
      · simp only [List.map_append, List.map_cons, List.map_nil, hnew]
        rw [List.nodup_append]
        refine ⟨ihN, List.nodup_singleton _, ?_⟩
        intro a ha hb
        simp only [List.mem_singleton] at hb
        subst hb
        obtain ⟨s, hs, hsn⟩ := List.mem_map.mp ha
        exact hnot s hs hsn
      · intro name
        simp only [List.map_append, List.mem_append, List.map_cons,
          List.map_nil, List.mem_singleton]
        constructor
        · rintro ⟨s', hs', rfl⟩
          rcases hs' with hs' | hs'
          · exact Or.inl ((ihC s'.name).mp ⟨s', hs', rfl⟩)
          · subst hs'
            exact Or.inr hnew
        · rintro (hname | hname)
          · obtain ⟨s, hs, rfl⟩ := (ihC name).mpr hname
            exact ⟨s, Or.inl hs, rfl⟩
          · exact ⟨bumpStats (initStats t.Ambassador) t, Or.inr rfl,
              hnew.trans hname.symm⟩
      · have hall : ∀ r ∈ rows, ¬ (r.Ambassador = t.Ambassador) :=
          fun r hr hh => hcov (List.mem_map.mpr ⟨r, hr, hh⟩)
        intro s' hs'
        rcases List.mem_append.mp hs' with hs' | hs'
        · obtain ⟨h1, h2, h3, h4, h5⟩ := ihS s' hs'
          have htfil : List.filter (fun r : XRow =>
              decide (r.Ambassador = s'.name)) [t] = [] := by
            have hp : (decide (t.Ambassador = s'.name)) = false := by
              simp only [decide_eq_false_iff_not]
              intro hh
              exact hnot s' hs' hh.symm
            simp [List.filter, hp]
          refine ⟨?_, ?_, ?_, ?_, ?_⟩ <;>
            simp [List.filter_append, htfil, h1, h2, h3, h4, h5]
        · simp only [List.mem_singleton] at hs'
          subst hs'
          have hrfil2 : List.filter
              (fun r : XRow => decide (r.Ambassador = t.Ambassador)) rows =
              [] := by
            rw [List.filter_eq_nil_iff]
            intro r hr hdec
            exact hall r hr (by simpa using hdec)
          refine ⟨?_, ?_, ?_, ?_, ?_⟩ <;>
            simp [List.filter_append, hrfil2, bumpStats, initStats, hnew,
              List.filter]

theorem splitTony_snd (cs : List CombinedStats)
    (acc : Option CombinedStats × List CombinedStats) :
    (cs.foldl splitTonyStep acc).2 =
      acc.2 ++ cs.filter (fun s => !(isTony s)) := by
  induction cs generalizing acc with
  | nil => simp
  | cons s rest ih =>
    simp only [List.foldl_cons]
    rw [ih]
    by_cases h : isTony s = true
    · simp [splitTonyStep, h, List.filter]
    · simp [splitTonyStep, h, List.filter]

theorem splitTony_fst_tony (cs : List CombinedStats)
    (acc : Option CombinedStats × List CombinedStats)
    (hacc : ∀ x, acc.1 = some x → isTony x = true) :
    ∀ x, (cs.foldl splitTonyStep acc).1 = some x → isTony x = true := by
  induction cs generalizing acc with
  | nil => exact hacc
  | cons s rest ih =>
    simp only [List.foldl_cons]
    apply ih
    intro x hx
    unfold splitTonyStep at hx
    by_cases h : isTony s = true
    · simp only [if_pos h] at hx
      obtain rfl := Option.some.inj hx
      exact h
    · simp only [if_neg h] at hx
      exact hacc x hx

theorem splitTony_fst_mono (cs : List CombinedStats)
    (acc : Option CombinedStats × List CombinedStats)
    (h : acc.1.isSome = true) :
    (cs.foldl splitTonyStep acc).1.isSome = true := by
  induction cs generalizing acc with
  | nil => exact h
  | cons s rest ih =>
    simp only [List.foldl_cons]
    apply ih
    unfold splitTonyStep
    by_cases hs : isTony s = true
    · simp [hs]
    · simpa [hs] using h

theorem splitTony_fst_any (cs : List CombinedStats)
    (acc : Option CombinedStats × List CombinedStats)
    (h : cs.any isTony = true) :
    (cs.foldl splitTonyStep acc).1.isSome = true := by
  induction cs generalizing acc with
  | nil => simp at h
  | cons s rest ih =>
    simp only [List.foldl_cons]
    by_cases hs : isTony s = true
    · apply splitTony_fst_mono
      simp [splitTonyStep, hs]
    · have h' : rest.any isTony = true := by
        simp only [List.any_cons, hs, Bool.false_or] at h
        exact h
      exact ih _ h'

/-- C8.  `get_leaderboard` groups rows by ambassador and sums every
engagement field per group, returning the groups sorted descending by
summed impressions with ties kept in insertion order (the stable-sort
filter characterisation); the spec's scenario [{A,100},{B,200},{A,50}]
yields [{B,200},{A,150}].  In the combined-platform variant, the one
special-cased entry — `name.lower() == "tony"` — is placed last when
present regardless of its score, while all other entries appear in
descending order of `total_views`. -/
theorem c8_leaderboard_spec :
    (∀ rows : List XRow, (xLeaderboard rows).Pairwise
      (fun a b => b.total_impressions ≤ a.total_impressions)) ∧
    (∀ (rows : List XRow) (v : Int),
      (xLeaderboard rows).filter (fun s => s.total_impressions = v) =
        (aggregateX rows).filter (fun s => s.total_impressions = v)) ∧
    (∀ rows : List XRow, ∀ s ∈ xLeaderboard rows,
      s.tweets = (rows.filter (fun t => t.Ambassador = s.name)).length ∧
      s.total_impressions =
        ((rows.filter (fun t => t.Ambassador = s.name)).map
          (fun t => t.Impressions)).sum ∧
      s.total_likes =
        ((rows.filter (fun t => t.Ambassador = s.name)).map
          (fun t => t.Likes)).sum ∧
      s.total_replies =
        ((rows.filter (fun t => t.Ambassador = s.name)).map
          (fun t => t.Replies)).sum ∧
      s.total_retweets =
        ((rows.filter (fun t => t.Ambassador = s.name)).map
          (fun t => t.Retweets)).sum) ∧
    xLeaderboard scenarioRows =
      [{ name := "bob", tweets := 1, total_impressions := 200,
         total_likes := 0, total_replies := 0, total_retweets := 0 },
       { name := "alice", tweets := 2, total_impressions := 150,
         total_likes := 3, total_replies := 1, total_retweets := 2 }] ∧
    (∀ (xAll : List XRow) (redditAll : List RedditRow),
      ((combinedStats xAll redditAll).any isTony = true →
        ∃ tEntry, (get_total_leaderboard xAll redditAll).getLast? =
          some tEntry ∧ isTony tEntry = true) ∧
      (get_total_leaderboard xAll redditAll).filter (fun s => !(isTony s)) =
        pySortDescBy (fun s => s.total_views)
          ((combinedStats xAll redditAll).filter (fun s => !(isTony s))) ∧
      ((get_total_leaderboard xAll redditAll).filter
          (fun s => !(isTony s))).Pairwise
        (fun a b => b.total_views ≤ a.total_views)) := by
  refine ⟨?_, ?_, ?_, by decide, ?_⟩
  · intro rows
    exact pairwise_pySortDescBy _ _
  · intro rows v
    exact filter_pySortDescBy _ _ v
  · intro rows s hs
    have hs' : s ∈ aggregateX rows :=
      (mem_pySort _ s _).mp hs
    exact (aggregateX_spec rows).2.2 s hs'
  · intro xAll redditAll
    have hsnd : ((combinedStats xAll redditAll).foldl splitTonyStep
        (none, ([] : List CombinedStats))).2 =
        (combinedStats xAll redditAll).filter (fun s => !(isTony s)) := by
      simpa using splitTony_snd (combinedStats xAll redditAll) (none, [])
    have htony : ∀ x, ((combinedStats xAll redditAll).foldl splitTonyStep
        (none, ([] : List CombinedStats))).1 = some x → isTony x = true := by
      apply splitTony_fst_tony
      intro x hx
      simp at hx
    have hfil : (get_total_leaderboard xAll redditAll).filter
        (fun s => !(isTony s)) =
        pySortDescBy (fun s => s.total_views)
          ((combinedStats xAll redditAll).filter (fun s => !(isTony s))) := by
      simp only [get_total_leaderboard]
      rw [List.filter_append, hsnd]
      have h1 : (pySortDescBy (fun s => s.total_views)
          ((combinedStats xAll redditAll).filter
            (fun s => !(isTony s)))).filter (fun s => !(isTony s)) =
          pySortDescBy (fun s => s.total_views)
            ((combinedStats xAll redditAll).filter (fun s => !(isTony s))) := by
        rw [List.filter_eq_self]
        intro a ha
        have ha' := (mem_pySort _ a _).mp ha
        exact (List.mem_filter.mp ha').2
      have h2 : (((combinedStats xAll redditAll).foldl splitTonyStep
          (none, ([] : List CombinedStats))).1.toList).filter
          (fun s => !(isTony s)) = [] := by
        cases hsp : ((combinedStats xAll redditAll).foldl splitTonyStep
            (none, ([] : List CombinedStats))).1 with
        | none => rfl
        | some x =>
          have hx := htony x hsp
          simp [Option.toList, List.filter, hx]
      rw [h1, h2, List.append_nil]
    refine ⟨?_, hfil, ?_⟩
    · intro hany
      have hsome := splitTony_fst_any (combinedStats xAll redditAll)
        (none, []) hany
      obtain ⟨tE, htE⟩ := Option.isSome_iff_exists.mp hsome
      refine ⟨tE, ?_, htony tE htE⟩
      simp only [get_total_leaderboard]
      rw [htE]
      simp [Option.toList]
    · rw [hfil]
      exact pairwise_pySortDescBy _ _

/-- Witness for C8: on concrete rows containing a top-scoring "Tony",
Tony still lands last; the scenario leaderboard is sorted descending. -/
theorem c8_leaderboard_witness :
    (∃ tEntry, (get_total_leaderboard tonyXRows []).getLast? = some tEntry ∧
      isTony tEntry = true) ∧
    (xLeaderboard scenarioRows).Pairwise
      (fun a b => b.total_impressions ≤ a.total_impressions) :=
  ⟨(c8_leaderboard_spec.2.2.2.2 tonyXRows []).1 (by decide),
   c8_leaderboard_spec.1 scenarioRows⟩

end NolusAmb
